import Mathlib

/-
Verification of the EPISCAN outbreak-detection engine
(src/backend/main.py, function detect_outbreaks).

The engine is embedded shallowly: the event store is a list of report
rows, the two range-filtered reads are list filters, the Python dicts
(insertion-ordered) are association lists updated in place, and the
floating-point statistics are modelled over the exact reals, with the
sample variance computed in the rationals and the square root taken in
the reals.  Python round uses round-half-to-even; it is embedded as
pyRoundInt below.
-/

namespace Episcan

/-- One row of the health_reports table, as read by detect_outbreaks:
location string, creation instant (seconds, UTC), symptom list and the
submitting user id. -/
structure Report where
  location : String
  timestamp : Int
  symptoms : List String
  user_id : String
deriving DecidableEq

/-- timedelta(days=1) in seconds. -/
def oneDay : Int := 86400

/-- The UTC calendar day of an instant: the embedding of taking
created_at[:10] (the YYYY-MM-DD prefix of the ISO timestamp). -/
def dayOf (t : Int) : Int := Int.fdiv t oneDay

/-- Embeds the baseline query of detect_outbreaks: created_at gte
now - 14 days and lt now - 7 days. -/
def baselineRead (now : Int) (store : List Report) : List Report :=
  store.filter (fun r => decide (now - 14 * oneDay ≤ r.timestamp ∧ r.timestamp < now - 7 * oneDay))

/-- Embeds the current query of detect_outbreaks: created_at gte
now - 1 day.  The source applies no upper bound to this query. -/
def currentRead (now : Int) (store : List Report) : List Report :=
  store.filter (fun r => decide (now - oneDay ≤ r.timestamp))

/-- Modelled from the spec (section 4.1), for comparison with
currentRead: the current window read as the spec words it, returning
exactly the reports with now - 24h ≤ timestamp < now. -/
def specCurrentRead (now : Int) (store : List Report) : List Report :=
  store.filter (fun r => decide (now - oneDay ≤ r.timestamp ∧ r.timestamp < now))

/-- Python dict lookup on an insertion-ordered association list. -/
def lookupA {α β : Type} [DecidableEq α] (key : α) : List (α × β) → Option β
  | [] => none
  | (k, v) :: rest => if k = key then some v else lookupA key rest

/-- The Python idiom "if key not in d: d[key] = init; d[key] = f d[key]"
on an insertion-ordered association list: update the entry in place, or
append a fresh one at the end. -/
def bumpAssoc {α β : Type} [DecidableEq α] (key : α) (f : β → β) (init : β) :
    List (α × β) → List (α × β)
  | [] => [(key, f init)]
  | (k, v) :: rest => if k = key then (k, f v) :: rest else (k, v) :: bumpAssoc key f init rest

/-- The per-location current-window accumulator of detect_outbreaks:
count, all symptoms (duplicates kept, report order), all user ids
(duplicates kept, report order). -/
structure Agg where
  count : Nat
  symptoms : List String
  user_ids : List String
deriving DecidableEq

/-- The fresh accumulator "count 0, symptoms [], user_ids []". -/
def emptyAgg : Agg := ⟨0, [], []⟩

/-- One loop step of the current-report grouping: count += 1,
symptoms.extend(report.symptoms), user_ids.append(report.user_id). -/
def addReport (a : Agg) (r : Report) : Agg :=
  ⟨a.count + 1, a.symptoms ++ r.symptoms, a.user_ids ++ [r.user_id]⟩

/-- baseline_by_location: location → day → count, dicts in insertion
order. -/
def groupBaseline (reports : List Report) : List (String × List (Int × Nat)) :=
  reports.foldl
    (fun acc r => bumpAssoc r.location (fun dc => bumpAssoc (dayOf r.timestamp) (fun c => c + 1) 0 dc) [] acc)
    []

/-- current_by_location: location → aggregate, dict in insertion
order. -/
def groupCurrent (reports : List Report) : List (String × Agg) :=
  reports.foldl (fun acc r => bumpAssoc r.location (fun a => addReport a r) emptyAgg acc) []

/-- symptom_counts: symptom → frequency, dict in insertion (first-seen)
order. -/
def countSyms (syms : List String) : List (String × Nat) :=
  syms.foldl (fun acc s => bumpAssoc s (fun c => c + 1) 0 acc) []

/-- The sequence of keys in first-seen order that a Python dict built by
repeated insertion exposes. -/
def firstSeenBy {α : Type} [DecidableEq α] (l : List α) : List α :=
  l.foldl (fun ks k => if k ∈ ks then ks else ks ++ [k]) []

/-- statistics.mean on the (rational-valued) daily counts. -/
def mean (l : List ℚ) : ℚ := l.sum / l.length

/-- The Bessel-corrected sample variance underlying statistics.stdev. -/
def sampleVar (l : List ℚ) : ℚ :=
  (l.map (fun x => (x - mean l) ^ 2)).sum / ((l.length : ℚ) - 1)

/-- statistics.stdev: square root of the sample variance, in ℝ. -/
noncomputable def stdev (l : List ℚ) : ℝ := Real.sqrt ((sampleVar l : ℚ) : ℝ)

/-- The degenerate-dispersion clamp: if std_dev == 0: std_dev = 1.0. -/
noncomputable def clampStd (s : ℝ) : ℝ := if s = 0 then 1 else s

/-- The standard deviation actually divided by: stdev then the clamp. -/
noncomputable def locStd (l : List ℚ) : ℝ := clampStd (stdev l)

/-- if len(daily_counts) < 2: daily_counts = [0, 0]. -/
def ensureTwo (l : List ℚ) : List ℚ := if l.length < 2 then [0, 0] else l

/-- The daily-count list chosen for a location: the values of its
baseline day dict in insertion order, or seven zeros when the location
is absent from baseline_by_location. -/
def baselineCounts (bl : List (String × List (Int × Nat))) (loc : String) : List ℚ :=
  match lookupA loc bl with
  | some dc => dc.map (fun p => (p.2 : ℚ))
  | none => [0, 0, 0, 0, 0, 0, 0]

/-- The daily-count list after the fewer-than-two fallback. -/
def adjCounts (bl : List (String × List (Int × Nat))) (loc : String) : List ℚ :=
  ensureTwo (baselineCounts bl loc)

/-- z_score = (current_count - mean) / std_dev. -/
noncomputable def locZ (current : Nat) (l : List ℚ) : ℝ :=
  ((current : ℝ) - ((mean l : ℚ) : ℝ)) / locStd l

/-- The severity ladder of detect_outbreaks, first match wins. -/
noncomputable def sevString (z : ℝ) : String :=
  if 3.5 < z then "High" else if 2.5 < z then "Medium" else "Low"

/-- Numeric rank of a severity string, for the ordering Low < Medium <
High. -/
def sevRank (s : String) : Nat := if s = "High" then 2 else if s = "Medium" then 1 else 0

/-- Python round to the nearest integer, ties to even. -/
noncomputable def pyRoundInt (x : ℝ) : ℤ :=
  if Int.fract x = 1 / 2 then (if ⌊x⌋ % 2 = 0 then ⌊x⌋ else ⌊x⌋ + 1) else round x

/-- Python round(x, k): round at the k-th decimal place. -/
noncomputable def pyRoundTo (k : Nat) (x : ℝ) : ℝ :=
  (pyRoundInt (x * 10 ^ k) : ℝ) / 10 ^ k

/-- risk_percentage and its rounding: round(min(z * 20, 100), 1). -/
noncomputable def riskScore (z : ℝ) : ℝ := pyRoundTo 1 (min (z * 20) 100)

/-- Insert one counted symptom into a descending-by-count list, before
the first entry whose count it reaches: the insertion step of a stable
descending sort. -/
def insertByCount (x : String × Nat) : List (String × Nat) → List (String × Nat)
  | [] => [x]
  | y :: ys => if y.2 ≤ x.2 then x :: y :: ys else y :: insertByCount x ys

/-- sorted(items, key=count, reverse=True): the stable descending sort
of the counted symptoms. -/
def sortDesc : List (String × Nat) → List (String × Nat)
  | [] => []
  | x :: xs => insertByCount x (sortDesc xs)

/-- top_symptoms: names of the first three entries of the stable
descending sort of the symptom frequencies. -/
def topSymptoms (syms : List String) : List String :=
  ((sortDesc (countSyms syms)).take 3).map Prod.fst

/-- The _debug sub-dict of an alert. -/
structure DebugInfo where
  baseline_mean : ℝ
  baseline_std_dev : ℝ
  current_count : Nat
  z_score : ℝ

/-- One outbreak alert as assembled by detect_outbreaks. -/
structure Alert where
  location : String
  affected_students : Nat
  risk_score : ℝ
  severity : String
  common_symptoms : List String
  detection_time : Int
  debug : DebugInfo

/-- The alert dict built for a location that cleared the threshold. -/
noncomputable def mkAlert (now : Int) (bl : List (String × List (Int × Nat)))
    (loc : String) (agg : Agg) : Alert :=
  { location := loc
    affected_students := agg.user_ids.dedup.length
    risk_score := riskScore (locZ agg.count (adjCounts bl loc))
    severity := sevString (locZ agg.count (adjCounts bl loc))
    common_symptoms := topSymptoms agg.symptoms
    detection_time := now
    debug :=
      { baseline_mean := pyRoundTo 2 ((mean (adjCounts bl loc) : ℚ) : ℝ)
        baseline_std_dev := pyRoundTo 2 (locStd (adjCounts bl loc))
        current_count := agg.count
        z_score := pyRoundTo 2 (locZ agg.count (adjCounts bl loc)) } }

/-- The loop body of detect_outbreaks for one location of the current
aggregate: score it and alert iff z_score > OUTBREAK_THRESHOLD = 2.0. -/
noncomputable def processLocation (now : Int) (bl : List (String × List (Int × Nat)))
    (loc : String) (agg : Agg) : Option Alert :=
  if 2 < locZ agg.count (adjCounts bl loc) then some (mkAlert now bl loc agg) else none

/-- detect_outbreaks, with the implicit datetime.utcnow() made an
explicit parameter and the store an explicit list of rows. -/
noncomputable def detect_outbreaks (now : Int) (store : List Report) : List Alert :=
  let baseline_reports := baselineRead now store
  let current_reports := currentRead now store
  let baseline_by_location := groupBaseline baseline_reports
  let current_by_location := groupCurrent current_reports
  current_by_location.filterMap (fun p => processLocation now baseline_by_location p.1 p.2)

/-! ### Association-list lemmas -/

@[simp] lemma lookupA_nil {α β : Type} [DecidableEq α] (k : α) :
    lookupA (β := β) k [] = none := rfl

lemma lookupA_bumpAssoc {α β : Type} [DecidableEq α] (key k : α) (f : β → β) (init : β)
    (acc : List (α × β)) :
    lookupA k (bumpAssoc key f init acc) =
      if k = key then some (f ((lookupA key acc).getD init)) else lookupA k acc := by
  induction acc with
  | nil =>
    by_cases h : k = key
    · subst h; simp [bumpAssoc, lookupA]
    · simp [bumpAssoc, lookupA, h, Ne.symm h]
  | cons p rest ih =>
    obtain ⟨k0, v⟩ := p
    by_cases hk0 : k0 = key
    · subst hk0
      by_cases h : k = k0
      · subst h; simp [bumpAssoc, lookupA]
      · simp [bumpAssoc, lookupA, h, Ne.symm h]
    · by_cases h : k0 = k
      · subst h
        simp [bumpAssoc, lookupA, hk0, Ne.symm hk0]
      · simp [bumpAssoc, lookupA, hk0, h, ih]

lemma map_fst_bumpAssoc {α β : Type} [DecidableEq α] (key : α) (f : β → β) (init : β)
    (acc : List (α × β)) :
    (bumpAssoc key f init acc).map Prod.fst =
      if key ∈ acc.map Prod.fst then acc.map Prod.fst else acc.map Prod.fst ++ [key] := by
  induction acc with
  | nil => simp [bumpAssoc]
  | cons p rest ih =>
    obtain ⟨k0, v⟩ := p
    by_cases h : k0 = key
    · subst h; simp [bumpAssoc]
    · by_cases hm : key ∈ rest.map Prod.fst <;>
        simp [bumpAssoc, h, ih, Ne.symm h, hm]

lemma foldl_bump_lookup {α β σ : Type} [DecidableEq α] (key : σ → α) (f : σ → β → β)
    (init : β) (rs : List σ) : ∀ (acc : List (α × β)) (k : α),
    lookupA k (rs.foldl (fun acc x => bumpAssoc (key x) (f x) init acc) acc) =
      (rs.filter (fun x => decide (key x = k))).foldl
        (fun o x => some (f x (o.getD init))) (lookupA k acc) := by
  induction rs with
  | nil => intro acc k; rfl
  | cons x rs ih =>
    intro acc k
    simp only [List.foldl_cons, List.filter_cons]
    rw [ih, lookupA_bumpAssoc]
    by_cases h : key x = k
    · simp [h]
    · have h2 : ¬k = key x := fun hh => h hh.symm
      simp [h, h2]

lemma foldl_bump_keys {α β σ : Type} [DecidableEq α] (key : σ → α) (f : σ → β → β)
    (init : β) (rs : List σ) : ∀ acc : List (α × β),
    (rs.foldl (fun acc x => bumpAssoc (key x) (f x) init acc) acc).map Prod.fst =
      (rs.map key).foldl (fun ks k => if k ∈ ks then ks else ks ++ [k])
        (acc.map Prod.fst) := by
  induction rs with
  | nil => intro acc; rfl
  | cons x rs ih =>
    intro acc
    simp only [List.foldl_cons, List.map_cons]
    rw [ih, map_fst_bumpAssoc]

lemma nodup_foldl_firstSeen {α : Type} [DecidableEq α] (l : List α) : ∀ ks : List α,
    ks.Nodup → (l.foldl (fun ks k => if k ∈ ks then ks else ks ++ [k]) ks).Nodup := by
  induction l with
  | nil => intro ks h; exact h
  | cons x l ih =>
    intro ks h
    simp only [List.foldl_cons]
    by_cases hm : x ∈ ks
    · rw [if_pos hm]; exact ih ks h
    · rw [if_neg hm]
      refine ih _ ?_
      rw [List.nodup_append]
      exact ⟨h, List.nodup_singleton x, by simpa [List.disjoint_singleton] using hm⟩

lemma firstSeenBy_nodup {α : Type} [DecidableEq α] (l : List α) : (firstSeenBy l).Nodup :=
  nodup_foldl_firstSeen l [] List.nodup_nil

lemma lookupA_of_mem {α β : Type} [DecidableEq α] : ∀ {l : List (α × β)} {k : α} {v : β},
    (k, v) ∈ l → (l.map Prod.fst).Nodup → lookupA k l = some v := by
  intro l
  induction l with
  | nil => simp
  | cons p rest ih =>
    intro k v hm hnd
    obtain ⟨k0, v0⟩ := p
    simp only [List.map_cons, List.nodup_cons] at hnd
    rcases List.mem_cons.mp hm with he | ht
    · obtain ⟨h1, h2⟩ := Prod.mk.injEq .. ▸ he
      subst h1; subst h2
      simp [lookupA]
    · have hk : k0 ≠ k := by
        rintro rfl
        exact hnd.1 (List.mem_map.mpr ⟨(k0, v), ht, rfl⟩)
      simp only [lookupA, if_neg hk]
      exact ih ht hnd.2

/-! ### Characterization of the current-window grouping -/

lemma foldl_addReport (fs : List Report) : ∀ a : Agg,
    fs.foldl addReport a =
      ⟨a.count + fs.length, a.symptoms ++ (fs.map Report.symptoms).flatten,
        a.user_ids ++ fs.map Report.user_id⟩ := by
  induction fs with
  | nil => intro a; simp
  | cons x fs ih =>
    intro a
    simp only [List.foldl_cons, ih, addReport, List.map_cons, List.flatten_cons,
      List.length_cons, Agg.mk.injEq]
    refine ⟨by omega, by simp, by simp⟩

lemma foldl_optAdd (fs : List Report) : ∀ a : Agg,
    fs.foldl (fun o r => some (addReport (o.getD emptyAgg) r)) (some a) =
      some (fs.foldl addReport a) := by
  induction fs with
  | nil => intro a; rfl
  | cons x fs ih => intro a; simp only [List.foldl_cons, Option.getD_some, ih]

lemma lookupA_groupCurrent (rs : List Report) (k : String) :
    lookupA k (groupCurrent rs) =
      (rs.filter (fun r => decide (r.location = k))).foldl
        (fun o r => some (addReport (o.getD emptyAgg) r)) none :=
  foldl_bump_lookup Report.location (fun r a => addReport a r) emptyAgg rs [] k

lemma groupCurrent_char {rs : List Report} {k : String} {agg : Agg}
    (h : lookupA k (groupCurrent rs) = some agg) :
    agg.count = (rs.filter (fun r => decide (r.location = k))).length ∧
    agg.symptoms = ((rs.filter (fun r => decide (r.location = k))).map Report.symptoms).flatten ∧
    agg.user_ids = (rs.filter (fun r => decide (r.location = k))).map Report.user_id := by
  rw [lookupA_groupCurrent] at h
  rcases hfs : rs.filter (fun r => decide (r.location = k)) with _ | ⟨x, fs⟩
  · rw [hfs] at h; simp at h
  · rw [hfs] at h
    simp only [List.foldl_cons, Option.getD_none, foldl_optAdd, Option.some.injEq] at h
    subst h
    rw [hfs]
    simp [foldl_addReport, addReport, emptyAgg]
    omega

lemma groupCurrent_keys (rs : List Report) :
    (groupCurrent rs).map Prod.fst = firstSeenBy (rs.map Report.location) :=
  foldl_bump_keys Report.location (fun r a => addReport a r) emptyAgg rs []

lemma countSyms_keys (syms : List String) :
    (countSyms syms).map Prod.fst = firstSeenBy syms := by
  have h := foldl_bump_keys (fun s : String => s) (fun _ c => c + 1) 0 syms []
  simpa [firstSeenBy] using h

/-! ### Stable descending sort lemmas -/

lemma mem_insertByCount (x z : String × Nat) (l : List (String × Nat)) :
    z ∈ insertByCount x l ↔ z = x ∨ z ∈ l := by
  induction l with
  | nil => simp [insertByCount]
  | cons y ys ih =>
    by_cases h : y.2 ≤ x.2
    · simp [insertByCount, h]
    · simp [insertByCount, h, ih]
      tauto

lemma pairwise_insertByCount (x : String × Nat) (l : List (String × Nat))
    (h : l.Pairwise (fun p q => q.2 ≤ p.2)) :
    (insertByCount x l).Pairwise (fun p q => q.2 ≤ p.2) := by
  induction l with
  | nil => simp [insertByCount]
  | cons y ys ih =>
    rw [List.pairwise_cons] at h
    by_cases hc : y.2 ≤ x.2
    · rw [insertByCount, if_pos hc, List.pairwise_cons]
      refine ⟨?_, List.pairwise_cons.mpr h⟩
      intro z hz
      rcases List.mem_cons.mp hz with rfl | hz
      · exact hc
      · exact le_trans (h.1 z hz) hc
    · rw [insertByCount, if_neg hc, List.pairwise_cons]
      refine ⟨?_, ih h.2⟩
      intro z hz
      rcases (mem_insertByCount x z ys).mp hz with rfl | hz
      · exact le_of_lt (lt_of_not_le hc)
      · exact h.1 z hz

lemma sortDesc_pairwise (l : List (String × Nat)) :
    (sortDesc l).Pairwise (fun p q => q.2 ≤ p.2) := by
  induction l with
  | nil => simp [sortDesc]
  | cons x xs ih => exact pairwise_insertByCount x (sortDesc xs) ih

lemma filter_insertByCount_ne (x : String × Nat) (l : List (String × Nat)) (c : Nat)
    (hc : x.2 ≠ c) :
    (insertByCount x l).filter (fun p => p.2 == c) = l.filter (fun p => p.2 == c) := by
  induction l with
  | nil => simp [insertByCount, List.filter_cons, hc]
  | cons y ys ih =>
    by_cases h : y.2 ≤ x.2
    · simp only [insertByCount, if_pos h, List.filter_cons]
      rw [if_neg (by simp [hc])]
    · simp only [insertByCount, if_neg h, List.filter_cons]
      rw [ih]

lemma filter_insertByCount_self (x : String × Nat) (l : List (String × Nat)) :
    (insertByCount x l).filter (fun p => p.2 == x.2) =
      x :: l.filter (fun p => p.2 == x.2) := by
  induction l with
  | nil => simp [insertByCount, List.filter_cons]
  | cons y ys ih =>
    by_cases h : y.2 ≤ x.2
    · simp only [insertByCount, if_pos h, List.filter_cons]
      rw [if_pos (by simp)]
    · have hy : ¬(y.2 == x.2) = true := by
        simp only [beq_iff_eq]
        omega
      simp only [insertByCount, if_neg h, List.filter_cons, if_neg hy, ih]

lemma sortDesc_filter (l : List (String × Nat)) (c : Nat) :
    (sortDesc l).filter (fun p => p.2 == c) = l.filter (fun p => p.2 == c) := by
  induction l with
  | nil => rfl
  | cons x xs ih =>
    by_cases hc : x.2 = c
    · subst hc
      rw [sortDesc, filter_insertByCount_self, ih, List.filter_cons, if_pos (by simp)]
    · rw [sortDesc, filter_insertByCount_ne x _ c hc, ih, List.filter_cons,
        if_neg (by simp [hc])]

/-! ### Numeric lemmas: clamped deviation, Python rounding, risk and severity -/

lemma locStd_pos (l : List ℚ) : 0 < locStd l := by
  unfold locStd clampStd
  split_ifs with h
  · norm_num
  · exact lt_of_le_of_ne (Real.sqrt_nonneg _) (Ne.symm h)

lemma locStd_of_var_zero {l : List ℚ} (h : sampleVar l = 0) : locStd l = 1 := by
  unfold locStd stdev clampStd
  rw [h]
  simp

lemma locZ_of_var_zero {l : List ℚ} (h : sampleVar l = 0) (c : Nat) :
    locZ c l = (c : ℝ) - ((mean l : ℚ) : ℝ) := by
  unfold locZ
  rw [locStd_of_var_zero h, div_one]

lemma pyRoundInt_intCast (n : ℤ) : pyRoundInt (n : ℝ) = n := by
  unfold pyRoundInt
  rw [Int.fract_intCast, if_neg (by norm_num), round_intCast]

lemma pyRoundInt_ge_floor (x : ℝ) : ⌊x⌋ ≤ pyRoundInt x := by
  unfold pyRoundInt
  split_ifs with h1 h2
  · omega
  · omega
  · rw [round_eq]
    exact Int.floor_le_floor (by linarith)

lemma pyRoundInt_le_floor_add_one (x : ℝ) : pyRoundInt x ≤ ⌊x⌋ + 1 := by
  unfold pyRoundInt
  split_ifs with h1 h2
  · omega
  · omega
  · rw [round_eq]
    have h3 : ⌊x + 1 / 2⌋ ≤ ⌊x + 1⌋ := Int.floor_le_floor (by linarith)
    rw [Int.floor_add_one] at h3
    exact h3

lemma pyRoundInt_le (x : ℝ) : (pyRoundInt x : ℝ) ≤ x + 1 / 2 := by
  unfold pyRoundInt
  split_ifs with h1 h2
  · have := Int.floor_le x
    linarith
  · have hf : x - ⌊x⌋ = 1 / 2 := by rw [Int.self_sub_floor, h1]
    push_cast
    linarith
  · have hab := abs_le.mp (abs_sub_round x)
    linarith [hab.1]

lemma le_pyRoundInt (x : ℝ) : x - 1 / 2 ≤ (pyRoundInt x : ℝ) := by
  unfold pyRoundInt
  split_ifs with h1 h2
  · have hf : x - ⌊x⌋ = 1 / 2 := by rw [Int.self_sub_floor, h1]
    linarith
  · have hf : x - ⌊x⌋ = 1 / 2 := by rw [Int.self_sub_floor, h1]
    push_cast
    linarith
  · have hab := abs_le.mp (abs_sub_round x)
    linarith [hab.2]

lemma pyRoundInt_mono {x y : ℝ} (h : x ≤ y) : pyRoundInt x ≤ pyRoundInt y := by
  rcases lt_or_le ⌊x⌋ ⌊y⌋ with hf | hf
  · calc pyRoundInt x ≤ ⌊x⌋ + 1 := pyRoundInt_le_floor_add_one x
    _ ≤ ⌊y⌋ := by omega
    _ ≤ pyRoundInt y := pyRoundInt_ge_floor y
  · have hxy : ⌊x⌋ = ⌊y⌋ := le_antisymm (Int.floor_le_floor h) hf
    by_cases h1 : Int.fract x = 1 / 2 <;> by_cases h2 : Int.fract y = 1 / 2
    · have hex : x - ⌊x⌋ = 1 / 2 := by rw [Int.self_sub_floor, h1]
      have hey : y - ⌊y⌋ = 1 / 2 := by rw [Int.self_sub_floor, h2]
      have hxeq : x = y := by
        have hc : ((⌊x⌋ : ℝ)) = ((⌊y⌋ : ℝ)) := by exact_mod_cast congrArg Int.cast hxy
        linarith
      rw [hxeq]
    · have hex : x - ⌊x⌋ = 1 / 2 := by rw [Int.self_sub_floor, h1]
      have hc : ((⌊x⌋ : ℝ)) = ((⌊y⌋ : ℝ)) := by exact_mod_cast congrArg Int.cast hxy
      have h4 : ⌊y⌋ + 1 ≤ round y := by
        rw [round_eq]
        exact Int.le_floor.mpr (by push_cast; linarith)
      have h5 : pyRoundInt y = round y := by
        unfold pyRoundInt
        rw [if_neg h2]
      calc pyRoundInt x ≤ ⌊x⌋ + 1 := pyRoundInt_le_floor_add_one x
      _ = ⌊y⌋ + 1 := by omega
      _ ≤ round y := h4
      _ = pyRoundInt y := h5.symm
    · have hey : y - ⌊y⌋ = 1 / 2 := by rw [Int.self_sub_floor, h2]
      have hxlt : x < y := by
        rcases lt_or_eq_of_le h with hlt | heq
        · exact hlt
        · exact absurd (heq ▸ h2) h1
      have h4 : round x ≤ ⌊y⌋ := by
        rw [round_eq]
        have h5 : ⌊x + 1 / 2⌋ < ⌊y⌋ + 1 := by
          apply Int.floor_lt.mpr
          push_cast
          linarith
        omega
      have h5 : pyRoundInt x = round x := by
        unfold pyRoundInt
        rw [if_neg h1]
      calc pyRoundInt x = round x := h5
      _ ≤ ⌊y⌋ := h4
      _ ≤ pyRoundInt y := pyRoundInt_ge_floor y
    · have h5 : pyRoundInt x = round x := by unfold pyRoundInt; rw [if_neg h1]
      have h6 : pyRoundInt y = round y := by unfold pyRoundInt; rw [if_neg h2]
      rw [h5, h6, round_eq, round_eq]
      exact Int.floor_le_floor (by linarith)

lemma riskScore_mono {z1 z2 : ℝ} (h : z1 ≤ z2) : riskScore z1 ≤ riskScore z2 := by
  unfold riskScore pyRoundTo
  have h1 : min (z1 * 20) 100 ≤ min (z2 * 20) 100 :=
    min_le_min (by linarith) le_rfl
  have h2 : min (z1 * 20) 100 * 10 ^ 1 ≤ min (z2 * 20) 100 * 10 ^ 1 := by
    have hp : (0 : ℝ) ≤ 10 ^ 1 := by norm_num
    exact mul_le_mul_of_nonneg_right h1 hp
  have h3 := pyRoundInt_mono h2
  have h4 : ((pyRoundInt (min (z1 * 20) 100 * 10 ^ 1) : ℤ) : ℝ) ≤
      ((pyRoundInt (min (z2 * 20) 100 * 10 ^ 1) : ℤ) : ℝ) := Int.cast_le.mpr h3
  exact div_le_div_of_nonneg_right h4 (by norm_num) |>.trans_eq rfl

lemma riskScore_bounds {z : ℝ} (hz : 2 < z) : 40 ≤ riskScore z ∧ riskScore z ≤ 100 := by
  unfold riskScore pyRoundTo
  rw [show ((10 : ℝ) ^ 1) = 10 by norm_num]
  have hr1 : (40 : ℝ) < min (z * 20) 100 := lt_min (by linarith) (by norm_num)
  have hr2 : min (z * 20) 100 ≤ 100 := min_le_right _ _
  have hb1 := le_pyRoundInt (min (z * 20) 100 * 10)
  have hb2 := pyRoundInt_le (min (z * 20) 100 * 10)
  have h400 : (400 : ℤ) ≤ pyRoundInt (min (z * 20) 100 * 10) := by
    have hc : (799 : ℝ) < 2 * (pyRoundInt (min (z * 20) 100 * 10) : ℤ) := by
      push_cast at hb1 ⊢
      linarith
    have hc2 : (799 : ℤ) < 2 * pyRoundInt (min (z * 20) 100 * 10) := by
      exact_mod_cast hc
    omega
  have h1000 : pyRoundInt (min (z * 20) 100 * 10) ≤ 1000 := by
    have hc : (2 : ℝ) * (pyRoundInt (min (z * 20) 100 * 10) : ℤ) ≤ 2001 := by
      push_cast at hb2 ⊢
      linarith
    have hc2 : (2 : ℤ) * pyRoundInt (min (z * 20) 100 * 10) ≤ 2001 := by
      exact_mod_cast hc
    omega
  constructor
  · rw [le_div_iff₀ (by norm_num : (0:ℝ) < 10)]
    have : (400 : ℝ) ≤ (pyRoundInt (min (z * 20) 100 * 10) : ℤ) := by exact_mod_cast h400
    linarith
  · rw [div_le_iff₀ (by norm_num : (0:ℝ) < 10)]
    have : ((pyRoundInt (min (z * 20) 100 * 10) : ℤ) : ℝ) ≤ 1000 := by exact_mod_cast h1000
    linarith

lemma sevRank_sevString (z : ℝ) :
    sevRank (sevString z) = if 3.5 < z then 2 else if 2.5 < z then 1 else 0 := by
  by_cases h1 : 3.5 < z
  · rw [sevString, if_pos h1, if_pos h1]
    decide
  · rw [sevString, if_neg h1, if_neg h1]
    by_cases h2 : 2.5 < z
    · rw [if_pos h2, if_pos h2]
      decide
    · rw [if_neg h2, if_neg h2]
      decide

lemma sevRank_sevString_mono {z1 z2 : ℝ} (h : z1 ≤ z2) :
    sevRank (sevString z1) ≤ sevRank (sevString z2) := by
  rw [sevRank_sevString, sevRank_sevString]
  split_ifs <;> first | omega | (exfalso; linarith)

lemma processLocation_some {now : Int} {bl : List (String × List (Int × Nat))}
    {loc : String} {agg : Agg} {a : Alert} :
    processLocation now bl loc agg = some a ↔
      2 < locZ agg.count (adjCounts bl loc) ∧ a = mkAlert now bl loc agg := by
  unfold processLocation
  split_ifs with h
  · simp [h, eq_comm]
  · simp [h]

/-! ### Concrete evaluation helpers -/

lemma pyRoundTo_int (k : Nat) (n : ℤ) : pyRoundTo k ((n : ℤ) : ℝ) = n := by
  unfold pyRoundTo
  have h : ((n : ℝ)) * 10 ^ k = ((n * 10 ^ k : ℤ) : ℝ) := by push_cast; ring
  rw [h, pyRoundInt_intCast]
  have hp : ((10 : ℝ) ^ k) ≠ 0 := by positivity
  push_cast
  field_simp

lemma riskScore_eq_int {z : ℝ} {m : ℤ} (h : min (z * 20) 100 = (m : ℝ)) :
    riskScore z = m := by
  unfold riskScore
  rw [h, pyRoundTo_int]

lemma sevString_of_high {z : ℝ} (h : 3.5 < z) : sevString z = "High" := by
  unfold sevString
  rw [if_pos h]

lemma sevString_of_medium {z : ℝ} (h1 : z ≤ 3.5) (h2 : 2.5 < z) : sevString z = "Medium" := by
  unfold sevString
  rw [if_neg (not_lt.mpr h1), if_pos h2]

lemma mean_zeros : mean [0, 0, 0, 0, 0, 0, 0] = 0 := by norm_num [mean]

lemma sampleVar_zeros : sampleVar [0, 0, 0, 0, 0, 0, 0] = 0 := by
  norm_num [sampleVar, mean]

lemma mean_twos : mean [2, 2, 2, 2, 2, 2, 2] = 2 := by norm_num [mean]

lemma sampleVar_twos : sampleVar [2, 2, 2, 2, 2, 2, 2] = 0 := by
  norm_num [sampleVar, mean]

lemma adjCounts_of_lookup_none {bl : List (String × List (Int × Nat))} {loc : String}
    (h : lookupA loc bl = none) : adjCounts bl loc = [0, 0, 0, 0, 0, 0, 0] := by
  unfold adjCounts baselineCounts
  rw [h]
  rfl

lemma locZ_of_lookup_none {bl : List (String × List (Int × Nat))} {loc : String}
    (h : lookupA loc bl = none) (c : Nat) : locZ c (adjCounts bl loc) = c := by
  rw [adjCounts_of_lookup_none h, locZ_of_var_zero sampleVar_zeros, mean_zeros]
  norm_num

/-! ### A concrete run of the engine, shared by several witnesses -/

/-- A demonstration instant: exactly day 14 after the epoch. -/
def demoNow : Int := 1209600

def demoR1 : Report := ⟨"A", 1209500, ["fever", "cough"], "u1"⟩

def demoR2 : Report := ⟨"A", 1209501, ["fever"], "u2"⟩

def demoR3 : Report := ⟨"A", 1209502, [], "u1"⟩

/-- Three current-window reports at location A, two distinct users, no
baseline history. -/
def demoStore : List Report := [demoR1, demoR2, demoR3]

/-- The single alert the engine produces on demoStore at demoNow. -/
noncomputable def demoAlert : Alert :=
  { location := "A"
    affected_students := 2
    risk_score := 60
    severity := "Medium"
    common_symptoms := ["fever", "cough"]
    detection_time := demoNow
    debug := { baseline_mean := 0, baseline_std_dev := 1, current_count := 3, z_score := 3 } }

lemma demo_baseline : baselineRead demoNow demoStore = [] := by decide

lemma demo_current : currentRead demoNow demoStore = demoStore := by decide

lemma demo_groupCurrent :
    groupCurrent demoStore = [("A", ⟨3, ["fever", "cough", "fever"], ["u1", "u2", "u1"]⟩)] := by
  decide

lemma demo_z : locZ 3 (adjCounts ([] : List (String × List (Int × Nat))) "A") = 3 := by
  have h := @locZ_of_lookup_none ([] : List (String × List (Int × Nat))) "A" rfl 3
  simpa using h

lemma demo_process :
    processLocation demoNow [] "A" ⟨3, ["fever", "cough", "fever"], ["u1", "u2", "u1"]⟩ =
      some demoAlert := by
  have hadj : adjCounts ([] : List (String × List (Int × Nat))) "A" = [0, 0, 0, 0, 0, 0, 0] :=
    adjCounts_of_lookup_none rfl
  unfold processLocation
  rw [if_pos (by rw [demo_z]; norm_num)]
  refine congrArg some ?_
  unfold mkAlert demoAlert
  congr 1
  · show riskScore (locZ 3 (adjCounts [] "A")) = 60
    rw [demo_z]
    refine riskScore_eq_int ?_
    rw [show ((3 : ℝ) * 20) = 60 by norm_num, min_eq_left (by norm_num : (60 : ℝ) ≤ 100)]
    norm_num
  · show sevString (locZ 3 (adjCounts [] "A")) = "Medium"
    rw [demo_z]
    exact sevString_of_medium (by norm_num) (by norm_num)
  · congr 1
    · show pyRoundTo 2 ((mean (adjCounts [] "A") : ℚ) : ℝ) = 0
      rw [hadj, mean_zeros]
      rw [show (((0 : ℚ) : ℝ)) = ((0 : ℤ) : ℝ) by norm_num, pyRoundTo_int]
      norm_num
    · show pyRoundTo 2 (locStd (adjCounts [] "A")) = 1
      rw [hadj, locStd_of_var_zero sampleVar_zeros]
      rw [show ((1 : ℝ)) = ((1 : ℤ) : ℝ) by norm_num, pyRoundTo_int]
    · show pyRoundTo 2 (locZ 3 (adjCounts [] "A")) = 3
      rw [demo_z]
      rw [show ((3 : ℝ)) = ((3 : ℤ) : ℝ) by norm_num, pyRoundTo_int]

lemma detect_demo : detect_outbreaks demoNow demoStore = [demoAlert] := by
  show (groupCurrent (currentRead demoNow demoStore)).filterMap
      (fun p => processLocation demoNow (groupBaseline (baselineRead demoNow demoStore)) p.1 p.2) =
    [demoAlert]
  rw [demo_baseline, demo_current, demo_groupCurrent]
  have hp : processLocation demoNow (groupBaseline [])
      "A" ⟨3, ["fever", "cough", "fever"], ["u1", "u2", "u1"]⟩ = some demoAlert := by
    rw [show groupBaseline [] = ([] : List (String × List (Int × Nat))) from rfl]
    exact demo_process
  simp [List.filterMap_cons, List.filterMap_nil, hp]

lemma demoAlert_mem : demoAlert ∈ detect_outbreaks demoNow demoStore := by
  rw [detect_demo]
  exact List.mem_singleton_self _

/-! ### Inverting membership in the alert list -/

lemma mkAlert_location (now : Int) (bl : List (String × List (Int × Nat))) (loc : String)
    (agg : Agg) : (mkAlert now bl loc agg).location = loc := rfl

lemma mkAlert_risk (now : Int) (bl : List (String × List (Int × Nat))) (loc : String)
    (agg : Agg) :
    (mkAlert now bl loc agg).risk_score = riskScore (locZ agg.count (adjCounts bl loc)) := rfl

lemma mkAlert_sev (now : Int) (bl : List (String × List (Int × Nat))) (loc : String)
    (agg : Agg) :
    (mkAlert now bl loc agg).severity = sevString (locZ agg.count (adjCounts bl loc)) := rfl

lemma mkAlert_affected (now : Int) (bl : List (String × List (Int × Nat))) (loc : String)
    (agg : Agg) :
    (mkAlert now bl loc agg).affected_students = agg.user_ids.dedup.length := rfl

lemma mkAlert_top (now : Int) (bl : List (String × List (Int × Nat))) (loc : String)
    (agg : Agg) :
    (mkAlert now bl loc agg).common_symptoms = topSymptoms agg.symptoms := rfl

lemma processLocation_eval (now : Int) (bl : List (String × List (Int × Nat))) (loc : String)
    (c : Nat) (syms ids : List String) :
    processLocation now bl loc ⟨c, syms, ids⟩ =
      if 2 < locZ c (adjCounts bl loc) then some (mkAlert now bl loc ⟨c, syms, ids⟩)
      else none := rfl

lemma detect_mem_inv {now : Int} {store : List Report} {a : Alert}
    (h : a ∈ detect_outbreaks now store) :
    ∃ agg : Agg,
      lookupA a.location (groupCurrent (currentRead now store)) = some agg ∧
      2 < locZ agg.count (adjCounts (groupBaseline (baselineRead now store)) a.location) ∧
      a = mkAlert now (groupBaseline (baselineRead now store)) a.location agg := by
  have h2 : a ∈ (groupCurrent (currentRead now store)).filterMap
      (fun p => processLocation now (groupBaseline (baselineRead now store)) p.1 p.2) := h
  rw [List.mem_filterMap] at h2
  obtain ⟨p, hp, hsome⟩ := h2
  obtain ⟨hz, ha⟩ := processLocation_some.mp hsome
  have hloc : a.location = p.1 := by rw [ha]; rfl
  refine ⟨p.2, ?_, ?_, ?_⟩
  · rw [hloc]
    refine lookupA_of_mem ?_ ?_
    · exact Prod.mk.eta.symm ▸ hp
    · rw [groupCurrent_keys]
      exact firstSeenBy_nodup _
  · rw [hloc]
    exact hz
  · rw [hloc]
    exact ha

lemma sevString_eq_high_iff {z : ℝ} : sevString z = "High" ↔ 3.5 < z := by
  unfold sevString
  split_ifs with h1 h2
  · simp [h1]
  · exact iff_of_false (by decide) h1
  · exact iff_of_false (by decide) h1

lemma sevString_eq_medium_iff {z : ℝ} : sevString z = "Medium" ↔ (2.5 < z ∧ z ≤ 3.5) := by
  unfold sevString
  split_ifs with h1 h2
  · exact iff_of_false (by decide) (fun hh => absurd h1 (not_lt.mpr hh.2))
  · exact iff_of_true rfl ⟨h2, not_lt.mp h1⟩
  · exact iff_of_false (by decide) (fun hh => h2 hh.1)

lemma sevString_eq_low_iff {z : ℝ} : sevString z = "Low" ↔ z ≤ 2.5 := by
  unfold sevString
  split_ifs with h1 h2
  · exact iff_of_false (by decide) (fun hh => by linarith)
  · exact iff_of_false (by decide) (fun hh => absurd h2 (not_lt.mpr hh))
  · exact iff_of_true rfl (not_lt.mp h2)

lemma filterMap_loc_sublist (now : Int) (bl : List (String × List (Int × Nat)))
    (l : List (String × Agg)) :
    List.Sublist ((l.filterMap (fun p => processLocation now bl p.1 p.2)).map Alert.location)
      (l.map Prod.fst) := by
  induction l with
  | nil => simp
  | cons p t ih =>
    rcases hp : processLocation now bl p.1 p.2 with _ | a
    · simp only [List.filterMap_cons, hp, List.map_cons]
      exact List.Sublist.cons _ ih
    · simp only [List.filterMap_cons, hp, List.map_cons]
      have hloc : a.location = p.1 := by
        obtain ⟨_, ha⟩ := processLocation_some.mp hp
        rw [ha]
        rfl
      rw [hloc]
      exact List.Sublist.cons₂ _ ih

/-! ### The claims -/

/-- C1 counterexample input: a single report whose timestamp equals the
detection instant now = 0. -/
def rC1 : Report := ⟨"A", 0, [], "u"⟩

/-- C1, counterexample: the claim says the current-window read returns
exactly the reports with now - 24h ≤ timestamp < now, so a report with
timestamp = now would be excluded; but the read of the source has no
upper bound, and the report with timestamp = now = 0 is returned. -/
theorem c1_cex :
    rC1 ∈ currentRead 0 [rC1] ∧ rC1 ∉ specCurrentRead 0 [rC1] ∧
    currentRead 0 [rC1] ≠ specCurrentRead 0 [rC1] := by
  decide

/-- C1, amended: the current-window read applies only the inclusive
lower bound now - 24h; a report is returned iff it is in the store and
has now - 24h ≤ timestamp, with no upper bound. -/
theorem c1_amended (now : Int) (store : List Report) (r : Report) :
    r ∈ currentRead now store ↔ (r ∈ store ∧ now - oneDay ≤ r.timestamp) := by
  unfold currentRead
  rw [List.mem_filter]
  simp

/-- C1 witness: the lower boundary instant now - 24h is included. -/
theorem c1_witness :
    (⟨"A", -86400, [], "u"⟩ : Report) ∈ currentRead 0 [⟨"A", -86400, [], "u"⟩] :=
  (c1_amended 0 [⟨"A", -86400, [], "u"⟩] ⟨"A", -86400, [], "u"⟩).mpr
    ⟨List.mem_singleton_self _, by norm_num [oneDay]⟩

/-- C2: a scored location yields an alert iff its z-score strictly
exceeds 2.0, and the severity of an emitted alert is High iff z > 3.5,
Medium iff 2.5 < z ≤ 3.5, and Low iff 2.0 < z ≤ 2.5. -/
theorem c2 (now : Int) (bl : List (String × List (Int × Nat))) (loc : String) (agg : Agg) :
    ((processLocation now bl loc agg).isSome ↔ 2 < locZ agg.count (adjCounts bl loc)) ∧
    (∀ a : Alert, processLocation now bl loc agg = some a →
      ((a.severity = "High" ↔ 3.5 < locZ agg.count (adjCounts bl loc)) ∧
       (a.severity = "Medium" ↔
         (2.5 < locZ agg.count (adjCounts bl loc) ∧ locZ agg.count (adjCounts bl loc) ≤ 3.5)) ∧
       (a.severity = "Low" ↔
         (2 < locZ agg.count (adjCounts bl loc) ∧ locZ agg.count (adjCounts bl loc) ≤ 2.5)))) := by
  constructor
  · unfold processLocation
    split_ifs with h <;> simp [h]
  · intro a ha
    obtain ⟨hz, haeq⟩ := processLocation_some.mp ha
    have hsev : a.severity = sevString (locZ agg.count (adjCounts bl loc)) := by
      rw [haeq]; rfl
    rw [hsev]
    refine ⟨sevString_eq_high_iff, sevString_eq_medium_iff, ?_⟩
    rw [sevString_eq_low_iff]
    exact ⟨fun hh => ⟨hz, hh⟩, fun hh => hh.2⟩

/-- C2 witness: a location with synthesized baseline and current count 3
has z = 3, is alerted, and its severity is Medium. -/
theorem c2_witness :
    (processLocation 0 [] "A" ⟨3, [], []⟩).isSome ∧
    (∀ a : Alert, processLocation 0 [] "A" ⟨3, [], []⟩ = some a → a.severity = "Medium") := by
  have h := c2 0 [] "A" ⟨3, [], []⟩
  have hz : locZ (Agg.mk 3 [] []).count (adjCounts [] "A") = 3 := by
    rw [show locZ (Agg.mk 3 [] []).count (adjCounts [] "A") = locZ 3 (adjCounts [] "A") from rfl,
      locZ_of_lookup_none (lookupA_nil "A") 3]
    norm_num
  constructor
  · exact h.1.mpr (by rw [hz]; norm_num)
  · intro a ha
    exact ((h.2 a ha).2.1).mpr ⟨by rw [hz]; norm_num, by rw [hz]; norm_num⟩

/-- C3 baseline mapping: location B with seven baseline days of two
reports each. -/
def blC3 : List (String × List (Int × Nat)) :=
  [("B", [(0, 2), (1, 2), (2, 2), (3, 2), (4, 2), (5, 2), (6, 2)])]

/-- C3: with baseline daily counts [2,2,2,2,2,2,2] and current count 10
the engine computes mean 2, sample variance 0 hence clamped deviation 1,
z = 8, and emits an alert with risk_score 100.0 and severity High. -/
theorem c3 :
    baselineCounts blC3 "B" = [2, 2, 2, 2, 2, 2, 2] ∧
    mean (adjCounts blC3 "B") = 2 ∧
    sampleVar (adjCounts blC3 "B") = 0 ∧
    locStd (adjCounts blC3 "B") = 1 ∧
    locZ 10 (adjCounts blC3 "B") = 8 ∧
    (∃ a : Alert, processLocation 0 blC3 "B" ⟨10, [], []⟩ = some a ∧
      a.risk_score = 100 ∧ a.severity = "High") := by
  have hbc : baselineCounts blC3 "B" = [2, 2, 2, 2, 2, 2, 2] := by decide
  have hadj : adjCounts blC3 "B" = [2, 2, 2, 2, 2, 2, 2] := by
    unfold adjCounts
    rw [hbc]
    rfl
  have hz : locZ 10 (adjCounts blC3 "B") = 8 := by
    rw [hadj, locZ_of_var_zero sampleVar_twos, mean_twos]
    norm_num
  refine ⟨hbc, by rw [hadj]; exact mean_twos, by rw [hadj]; exact sampleVar_twos,
    by rw [hadj]; exact locStd_of_var_zero sampleVar_twos, hz, ?_⟩
  refine ⟨mkAlert 0 blC3 "B" ⟨10, [], []⟩, ?_, ?_, ?_⟩
  · rw [processLocation_eval, if_pos (by rw [hz]; norm_num)]
  · rw [mkAlert_risk]
    show riskScore (locZ 10 (adjCounts blC3 "B")) = 100
    rw [hz]
    refine riskScore_eq_int ?_
    rw [show ((8 : ℝ) * 20) = 160 by norm_num, min_eq_right (by norm_num : (100 : ℝ) ≤ 160)]
    norm_num
  · rw [mkAlert_sev]
    show sevString (locZ 10 (adjCounts blC3 "B")) = "High"
    rw [hz]
    exact sevString_of_high (by norm_num)

/-- C4: a location absent from the baseline mapping is scored against
seven zero daily counts: mean 0, clamped deviation 1, z equal to the
current count; current count 1 yields no alert, current count 3 yields a
Medium alert with risk_score 60.0. -/
theorem c4 (bl : List (String × List (Int × Nat))) (loc : String)
    (h : lookupA loc bl = none) :
    baselineCounts bl loc = [0, 0, 0, 0, 0, 0, 0] ∧
    mean (adjCounts bl loc) = 0 ∧
    locStd (adjCounts bl loc) = 1 ∧
    (∀ c : Nat, locZ c (adjCounts bl loc) = c) ∧
    processLocation 0 bl loc ⟨1, [], []⟩ = none ∧
    (∃ a : Alert, processLocation 0 bl loc ⟨3, [], []⟩ = some a ∧
      a.severity = "Medium" ∧ a.risk_score = 60) := by
  have hbc : baselineCounts bl loc = [0, 0, 0, 0, 0, 0, 0] := by
    unfold baselineCounts
    rw [h]
  have hadj := adjCounts_of_lookup_none h
  have hz1 : locZ 1 (adjCounts bl loc) = 1 := by
    rw [locZ_of_lookup_none h 1]
    norm_num
  have hz3 : locZ 3 (adjCounts bl loc) = 3 := by
    rw [locZ_of_lookup_none h 3]
    norm_num
  refine ⟨hbc, by rw [hadj]; exact mean_zeros,
    by rw [hadj]; exact locStd_of_var_zero sampleVar_zeros, locZ_of_lookup_none h, ?_, ?_⟩
  · rw [processLocation_eval, if_neg (by rw [hz1]; norm_num)]
  · refine ⟨mkAlert 0 bl loc ⟨3, [], []⟩, ?_, ?_, ?_⟩
    · rw [processLocation_eval, if_pos (by rw [hz3]; norm_num)]
    · rw [mkAlert_sev]
      show sevString (locZ 3 (adjCounts bl loc)) = "Medium"
      rw [hz3]
      exact sevString_of_medium (by norm_num) (by norm_num)
    · rw [mkAlert_risk]
      show riskScore (locZ 3 (adjCounts bl loc)) = 60
      rw [hz3]
      refine riskScore_eq_int ?_
      rw [show ((3 : ℝ) * 20) = 60 by norm_num, min_eq_left (by norm_num : (60 : ℝ) ≤ 100)]
      norm_num

/-- C4 witness: instantiated at the empty baseline mapping and location
A, whose lookup is none by computation. -/
theorem c4_witness :
    baselineCounts [] "A" = [0, 0, 0, 0, 0, 0, 0] ∧
    mean (adjCounts [] "A") = 0 ∧
    locStd (adjCounts [] "A") = 1 ∧
    (∀ c : Nat, locZ c (adjCounts [] "A") = c) ∧
    processLocation 0 [] "A" ⟨1, [], []⟩ = none ∧
    (∃ a : Alert, processLocation 0 [] "A" ⟨3, [], []⟩ = some a ∧
      a.severity = "Medium" ∧ a.risk_score = 60) :=
  c4 [] "A" rfl

/-- C5: with the baseline fixed, a strictly larger current count gives a
strictly larger z-score, a risk score that does not decrease, and a
severity tier that does not decrease. -/
theorem c5 (bl : List (String × List (Int × Nat))) (loc : String) (c1 c2 : Nat)
    (h : c1 < c2) :
    locZ c1 (adjCounts bl loc) < locZ c2 (adjCounts bl loc) ∧
    riskScore (locZ c1 (adjCounts bl loc)) ≤ riskScore (locZ c2 (adjCounts bl loc)) ∧
    sevRank (sevString (locZ c1 (adjCounts bl loc))) ≤
      sevRank (sevString (locZ c2 (adjCounts bl loc))) := by
  have hs := locStd_pos (adjCounts bl loc)
  have hz : locZ c1 (adjCounts bl loc) < locZ c2 (adjCounts bl loc) := by
    unfold locZ
    rw [div_lt_div_iff_of_pos_right hs]
    have hc : (c1 : ℝ) < (c2 : ℝ) := Nat.cast_lt.mpr h
    linarith
  exact ⟨hz, riskScore_mono (le_of_lt hz), sevRank_sevString_mono (le_of_lt hz)⟩

/-- C5 witness: counts 3 and 5 against the synthesized zero baseline. -/
theorem c5_witness :
    locZ 3 (adjCounts [] "A") < locZ 5 (adjCounts [] "A") ∧
    riskScore (locZ 3 (adjCounts [] "A")) ≤ riskScore (locZ 5 (adjCounts [] "A")) ∧
    sevRank (sevString (locZ 3 (adjCounts [] "A"))) ≤
      sevRank (sevString (locZ 5 (adjCounts [] "A"))) :=
  c5 [] "A" 3 5 (by norm_num)

/-- C6: a daily-count list shorter than two entries is replaced by
[0, 0], the list entering the statistics always has at least two
entries, and the clamped standard deviation is strictly positive, hence
never zero: the z-score divisor is always nonzero. -/
theorem c6 (bl : List (String × List (Int × Nat))) (loc : String) (l : List ℚ) :
    (l.length < 2 → ensureTwo l = [0, 0]) ∧
    2 ≤ (ensureTwo l).length ∧
    0 < locStd (ensureTwo l) ∧
    locStd (adjCounts bl loc) ≠ 0 := by
  refine ⟨?_, ?_, locStd_pos _, ne_of_gt (locStd_pos _)⟩
  · intro hlt
    unfold ensureTwo
    rw [if_pos hlt]
  · unfold ensureTwo
    split_ifs with hlt
    · norm_num
    · omega

/-- C6 witness: the singleton list [5] is replaced by [0, 0] and the
clamped deviation is positive. -/
theorem c6_witness :
    ensureTwo [(5 : ℚ)] = [0, 0] ∧ 0 < locStd (ensureTwo [(5 : ℚ)]) :=
  ⟨(c6 [] "A" [(5 : ℚ)]).1 (by norm_num), (c6 [] "A" [(5 : ℚ)]).2.2.1⟩

/-- C7: every returned alert carries risk_score = round(min(z * 20, 100), 1)
for the z-score of its location, its z-score exceeds 2, and the
risk_score always lies in [0, 100]. -/
theorem c7 (now : Int) (store : List Report) (a : Alert)
    (h : a ∈ detect_outbreaks now store) :
    2 < locZ ((currentRead now store).filter (fun r => decide (r.location = a.location))).length
        (adjCounts (groupBaseline (baselineRead now store)) a.location) ∧
    a.risk_score = pyRoundTo 1
      (min (locZ ((currentRead now store).filter (fun r => decide (r.location = a.location))).length
        (adjCounts (groupBaseline (baselineRead now store)) a.location) * 20) 100) ∧
    0 ≤ a.risk_score ∧ a.risk_score ≤ 100 := by
  obtain ⟨agg, hlk, hz, haeq⟩ := detect_mem_inv h
  obtain ⟨hc, -, -⟩ := groupCurrent_char hlk
  rw [← hc]
  have har : a.risk_score =
      riskScore (locZ agg.count (adjCounts (groupBaseline (baselineRead now store)) a.location)) := by
    rw [haeq, mkAlert_risk, mkAlert_location]
  have hb := riskScore_bounds hz
  refine ⟨hz, ?_, ?_, ?_⟩
  · rw [har]
    rfl
  · rw [har]
    linarith [hb.1]
  · rw [har]
    exact hb.2

/-- C7 witness: the risk score of the demonstration alert is within
[0, 100]. -/
theorem c7_witness : 0 ≤ demoAlert.risk_score ∧ demoAlert.risk_score ≤ 100 :=
  ⟨(c7 demoNow demoStore demoAlert demoAlert_mem).2.2.1,
   (c7 demoNow demoStore demoAlert demoAlert_mem).2.2.2⟩

/-- C8: every alert carries the top symptoms of its own current
aggregate, of length at most 3; the symptom ranking is sorted by
non-increasing frequency, ties keep the first-seen order of the
frequency table (whose keys are in first-seen order), and an empty
symptom sequence yields an empty top_symptoms. -/
theorem c8 (now : Int) (store : List Report) (syms : List String) :
    (∀ a ∈ detect_outbreaks now store,
      a.common_symptoms = topSymptoms
        (((currentRead now store).filter
          (fun r => decide (r.location = a.location))).map Report.symptoms).flatten ∧
      a.common_symptoms.length ≤ 3) ∧
    topSymptoms syms = ((sortDesc (countSyms syms)).take 3).map Prod.fst ∧
    (sortDesc (countSyms syms)).Pairwise (fun p q => q.2 ≤ p.2) ∧
    (∀ c : Nat, (sortDesc (countSyms syms)).filter (fun p => p.2 == c) =
      (countSyms syms).filter (fun p => p.2 == c)) ∧
    (countSyms syms).map Prod.fst = firstSeenBy syms ∧
    (syms = [] → topSymptoms syms = []) := by
  refine ⟨?_, rfl, sortDesc_pairwise _, fun c => sortDesc_filter _ c, countSyms_keys syms, ?_⟩
  · intro a ha
    obtain ⟨agg, hlk, hz, haeq⟩ := detect_mem_inv ha
    obtain ⟨-, hs, -⟩ := groupCurrent_char hlk
    have htop : a.common_symptoms = topSymptoms agg.symptoms := by
      rw [haeq, mkAlert_top]
    constructor
    · rw [htop, hs]
    · rw [htop]
      unfold topSymptoms
      rw [List.length_map]
      exact le_trans (List.length_take_le _ _) le_rfl
  · intro hnil
    rw [hnil]
    rfl

/-- C8 witness: the demonstration alert has at most three top symptoms,
and an empty symptom list produces an empty ranking. -/
theorem c8_witness :
    demoAlert.common_symptoms.length ≤ 3 ∧ topSymptoms [] = [] :=
  ⟨((c8 demoNow demoStore []).1 demoAlert demoAlert_mem).2,
   (c8 demoNow demoStore []).2.2.2.2.2 rfl⟩

/-- C9: every returned alert reports as affected_subjects the number of
distinct user ids among the current-window reports of its location,
which never exceeds the report count of that location. -/
theorem c9 (now : Int) (store : List Report) (a : Alert)
    (h : a ∈ detect_outbreaks now store) :
    a.affected_students =
      (((currentRead now store).filter
        (fun r => decide (r.location = a.location))).map Report.user_id).dedup.length ∧
    a.affected_students ≤
      ((currentRead now store).filter (fun r => decide (r.location = a.location))).length := by
  obtain ⟨agg, hlk, hz, haeq⟩ := detect_mem_inv h
  obtain ⟨hc, -, hu⟩ := groupCurrent_char hlk
  have h1 : a.affected_students = agg.user_ids.dedup.length := by
    rw [haeq, mkAlert_affected]
  constructor
  · rw [h1, hu]
  · rw [h1]
    calc agg.user_ids.dedup.length ≤ agg.user_ids.length :=
        List.Sublist.length_le (List.dedup_sublist _)
    _ = _ := by rw [hu, List.length_map]

/-- C9 witness: the demonstration alert counts 2 distinct users among 3
reports. -/
theorem c9_witness :
    demoAlert.affected_students =
      (((currentRead demoNow demoStore).filter
        (fun r => decide (r.location = demoAlert.location))).map Report.user_id).dedup.length ∧
    demoAlert.affected_students ≤
      ((currentRead demoNow demoStore).filter
        (fun r => decide (r.location = demoAlert.location))).length :=
  c9 demoNow demoStore demoAlert demoAlert_mem

/-- C10: the locations of the returned alert list form a sublist of the
first-seen sequence of locations of the current-window reports, so
alerts appear in the order their locations first occur in the current
read, each location at most once; the output is a function of the two
read sequences, hence deterministic. -/
theorem c10 (now : Int) (store : List Report) :
    List.Sublist ((detect_outbreaks now store).map Alert.location)
      (firstSeenBy ((currentRead now store).map Report.location)) ∧
    ((detect_outbreaks now store).map Alert.location).Nodup := by
  have h1 : List.Sublist ((detect_outbreaks now store).map Alert.location)
      ((groupCurrent (currentRead now store)).map Prod.fst) :=
    filterMap_loc_sublist now (groupBaseline (baselineRead now store))
      (groupCurrent (currentRead now store))
  rw [groupCurrent_keys] at h1
  exact ⟨h1, List.Nodup.sublist h1 (firstSeenBy_nodup _)⟩

end Episcan
